import Mathlib

/-!
Shallow embedding of the github-issue fetch/matcher utility.

Conventions used throughout:
- Go pointer fields become `Option` fields; a nil pointer is `none`.
- `time.Time` values become `Int` instants; `a.After b` is `a > b` and
  `a.Before b` is `a < b` (both strict, as in Go).
- Go slices become `GoSlice`: a Go nil slice is distinguished from a
  non-nil empty slice by the `isNil` flag, and `append` follows the Go
  rule that appending a non-empty batch always yields a non-nil slice
  while appending nothing returns the receiver unchanged.
- Functions in the `matchers` package (matchers.go) nil-check every
  pointer they read, so they embed as total `Bool` functions.
- Functions in the `event` package dereference pointers without checks,
  so they embed as `Option Bool`: `none` models a nil-pointer
  dereference, which in Go is a runtime panic, and `some b` a normal
  return of `b`.
- The paginated fetch loops interact with the remote API; the successive
  results of the API calls are passed in as an explicit list, each entry
  `none` for a request error and `some (records, nextPage)` for a page.
  The outer `Option` of the result is `none` when the list of responses
  is exhausted with the loop still running (the real loop would still be
  iterating or would have panicked).
-/

/-- Embeds github.User: only the Login field is read by this repository. -/
structure User where
  Login : Option String
  deriving Repr, DecidableEq

/-- Embeds github.Label: only the Name field is read by this repository. -/
structure Label where
  Name : Option String
  deriving Repr, DecidableEq

/-- Embeds github.IssueEvent, restricted to the fields this repository reads. -/
structure IssueEvent where
  ID : Option Int
  Event : Option String
  Label : Option Label
  Actor : Option User
  CreatedAt : Option Int
  deriving Repr, DecidableEq

/-- Embeds github.IssueComment, restricted to the fields this repository reads. -/
structure IssueComment where
  User : Option User
  CreatedAt : Option Int
  deriving Repr, DecidableEq

/-- Embeds github.PullRequestComment, restricted to the fields this repository reads. -/
structure PullRequestComment where
  User : Option User
  CreatedAt : Option Int
  deriving Repr, DecidableEq

/-- Embeds github.Issue, restricted to the fields this repository reads. -/
structure Issue where
  Number : Option Int
  UpdatedAt : Option Int
  deriving Repr, DecidableEq

/-- A Go slice value: a nil slice (`isNil = true`) is observably distinct
from a non-nil empty slice, and both carry their element list. -/
structure GoSlice (α : Type) where
  isNil : Bool
  data : List α
  deriving Repr, DecidableEq

/-- The Go nil slice (the zero value of a slice variable). -/
def GoSlice.nil (α : Type) : GoSlice α := ⟨true, []⟩

/-- Go append of a whole batch: appending zero elements returns the
receiver unchanged (a nil slice stays nil); appending a non-empty batch
yields a non-nil slice with the concatenated elements. -/
def GoSlice.appendList {α : Type} (s : GoSlice α) (xs : List α) : GoSlice α :=
  if xs.isEmpty then s else ⟨false, s.data ++ xs⟩

namespace event

/-- Deep embedding of the event-package Matcher interface, closed over the
implementations the package defines: And, Or, Not, Actor, AddLabel,
CreatedAfter and CreatedBefore. -/
inductive Matcher where
  | And (children : List Matcher)
  | Or (children : List Matcher)
  | Not (m : Matcher)
  | Actor (name : String)
  | AddLabel (name : String)
  | CreatedAfter (t : Int)
  | CreatedBefore (t : Int)

mutual

/-- Embeds the Match methods of the event package. The argument is the
possibly-nil event pointer. Actor and AddLabel nil-check their fields but
dereference the event itself; CreatedAfter and CreatedBefore call
event.CreatedAt.After / .Before with no nil check at all, so a nil event
or a nil CreatedAt is a panic (`none`). -/
def Matcher.Match : Matcher → Option IssueEvent → Option Bool
  | .And children, e => Matcher.MatchAll children e
  | .Or children, e => Matcher.MatchAny children e
  | .Not m, e =>
    match m.Match e with
    | none => none
    | some b => some (!b)
  | .Actor name, e =>
    match e with
    | none => none
    | some ev =>
      match ev.Actor with
      | none => some false
      | some u =>
        match u.Login with
        | none => some false
        | some login => some (decide (login = name))
  | .AddLabel name, e =>
    match e with
    | none => none
    | some ev =>
      match ev.Label with
      | none => some false
      | some lb =>
        match lb.Name with
        | none => some false
        | some lname =>
          match ev.Event with
          | none => some false
          | some et => some (decide (et = "labeled") || decide (lname = name))
  | .CreatedAfter t, e =>
    match e with
    | none => none
    | some ev =>
      match ev.CreatedAt with
      | none => none
      | some c => some (decide (c > t))
  | .CreatedBefore t, e =>
    match e with
    | none => none
    | some ev =>
      match ev.CreatedAt with
      | none => none
      | some c => some (decide (c < t))

/-- Embeds the loop body of And.Match: short-circuits on the first child
that does not match, and propagates a panic of a child. -/
def Matcher.MatchAll : List Matcher → Option IssueEvent → Option Bool
  | [], _ => some true
  | m :: rest, e =>
    match m.Match e with
    | none => none
    | some false => some false
    | some true => Matcher.MatchAll rest e

/-- Embeds the loop body of Or.Match: short-circuits on the first child
that matches, and propagates a panic of a child. -/
def Matcher.MatchAny : List Matcher → Option IssueEvent → Option Bool
  | [], _ => some false
  | m :: rest, e =>
    match m.Match e with
    | none => none
    | some true => some true
    | some false => Matcher.MatchAny rest e

end

/-- Embeds the loop of FindEvent: the accumulator starts as the non-nil
empty slice literal, each matching event pointer is appended in input
order, and a panic inside a Match call aborts the whole traversal. -/
def FindEvent.loop (events : List (Option IssueEvent)) (matcher : Matcher)
    (matchingEvents : GoSlice (Option IssueEvent)) : Option (GoSlice (Option IssueEvent)) :=
  match events with
  | [] => some matchingEvents
  | e :: rest =>
    match matcher.Match e with
    | none => none
    | some true => FindEvent.loop rest matcher (matchingEvents.appendList [e])
    | some false => FindEvent.loop rest matcher matchingEvents

/-- Embeds FindEvent of the event package: filters a slice of event
pointers through one matcher. -/
def FindEvent (events : List (Option IssueEvent)) (matcher : Matcher) :
    Option (GoSlice (Option IssueEvent)) :=
  FindEvent.loop events matcher ⟨false, []⟩

end event

/-- Models strings.ToLower: per-character lowercasing of the string (the
logins this repository compares are ASCII names). -/
def strToLower (s : String) : String := ⟨s.data.map Char.toLower⟩

namespace matchers

/-- Embeds CreatedAfter.MatchEvent of matchers.go: false on a nil event or a
nil CreatedAt, otherwise the strict After comparison. -/
def CreatedAfter.MatchEvent (c : Int) (event : Option IssueEvent) : Bool :=
  match event with
  | none => false
  | some ev =>
    match ev.CreatedAt with
    | none => false
    | some t => decide (t > c)

/-- Embeds CreatedAfter.MatchComment of matchers.go. -/
def CreatedAfter.MatchComment (c : Int) (comment : Option IssueComment) : Bool :=
  match comment with
  | none => false
  | some cm =>
    match cm.CreatedAt with
    | none => false
    | some t => decide (t > c)

/-- Embeds CreatedAfter.MatchReviewComment of matchers.go. -/
def CreatedAfter.MatchReviewComment (c : Int) (review : Option PullRequestComment) : Bool :=
  match review with
  | none => false
  | some rv =>
    match rv.CreatedAt with
    | none => false
    | some t => decide (t > c)

/-- Embeds CreatedBefore.MatchEvent of matchers.go: false on a nil event or
a nil CreatedAt, otherwise the strict Before comparison. -/
def CreatedBefore.MatchEvent (c : Int) (event : Option IssueEvent) : Bool :=
  match event with
  | none => false
  | some ev =>
    match ev.CreatedAt with
    | none => false
    | some t => decide (t < c)

/-- Embeds CreatedBefore.MatchComment of matchers.go. -/
def CreatedBefore.MatchComment (c : Int) (comment : Option IssueComment) : Bool :=
  match comment with
  | none => false
  | some cm =>
    match cm.CreatedAt with
    | none => false
    | some t => decide (t < c)

/-- Embeds CreatedBefore.MatchReviewComment of matchers.go. -/
def CreatedBefore.MatchReviewComment (c : Int) (review : Option PullRequestComment) : Bool :=
  match review with
  | none => false
  | some rv =>
    match rv.CreatedAt with
    | none => false
    | some t => decide (t < c)

/-- Embeds ValidAuthor.MatchEvent of matchers.go: the event, its Actor and
the Login must all be non-nil. -/
def ValidAuthor.MatchEvent (event : Option IssueEvent) : Bool :=
  match event with
  | none => false
  | some ev =>
    match ev.Actor with
    | none => false
    | some u => u.Login.isSome

/-- Embeds ValidAuthor.MatchComment of matchers.go. -/
def ValidAuthor.MatchComment (comment : Option IssueComment) : Bool :=
  match comment with
  | none => false
  | some cm =>
    match cm.User with
    | none => false
    | some u => u.Login.isSome

/-- Embeds ValidAuthor.MatchReviewComment of matchers.go. -/
def ValidAuthor.MatchReviewComment (review : Option PullRequestComment) : Bool :=
  match review with
  | none => false
  | some rv =>
    match rv.User with
    | none => false
    | some u => u.Login.isSome

/-- Embeds AuthorLogin.MatchEvent of matchers.go: guarded by ValidAuthor
(event, Actor and Login non-nil), then a lowercase comparison of the
Login with the configured name. -/
def AuthorLogin.MatchEvent (a : String) (event : Option IssueEvent) : Bool :=
  match event with
  | none => false
  | some ev =>
    match ev.Actor with
    | none => false
    | some u =>
      match u.Login with
      | none => false
      | some login => decide (strToLower login = strToLower a)

/-- Embeds AuthorLogin.MatchComment of matchers.go (guard on comment.User). -/
def AuthorLogin.MatchComment (a : String) (comment : Option IssueComment) : Bool :=
  match comment with
  | none => false
  | some cm =>
    match cm.User with
    | none => false
    | some u =>
      match u.Login with
      | none => false
      | some login => decide (strToLower login = strToLower a)

/-- Embeds AuthorLogin.MatchReviewComment of matchers.go (guard on review.User). -/
def AuthorLogin.MatchReviewComment (a : String) (review : Option PullRequestComment) : Bool :=
  match review with
  | none => false
  | some rv =>
    match rv.User with
    | none => false
    | some u =>
      match u.Login with
      | none => false
      | some login => decide (strToLower login = strToLower a)

/-- Embeds AddLabel.MatchEvent of matchers.go (the field-free AddLabel
struct): true exactly when the event and its Event tag are non-nil and
the tag is the string labeled. -/
def AddLabel.MatchEvent (event : Option IssueEvent) : Bool :=
  match event with
  | none => false
  | some ev =>
    match ev.Event with
    | none => false
    | some et => decide (et = "labeled")

/-- Embeds AddLabel.MatchComment of matchers.go: constant false. -/
def AddLabel.MatchComment (_ : Option IssueComment) : Bool := false

/-- Embeds AddLabel.MatchReviewComment of matchers.go: constant false. -/
def AddLabel.MatchReviewComment (_ : Option PullRequestComment) : Bool := false

/-- Embeds the MatchEvent method of the label-prefix matcher of
matchers.go (Go type name shortened): false when the event, its Label or
the Label Name is nil, otherwise a startsWith test on the label name. -/
def LabelPfx.MatchEvent (l : String) (event : Option IssueEvent) : Bool :=
  match event with
  | none => false
  | some ev =>
    match ev.Label with
    | none => false
    | some lb =>
      match lb.Name with
      | none => false
      | some n => n.startsWith l

/-- Embeds the MatchComment method of the label-prefix matcher: constant false. -/
def LabelPfx.MatchComment (_ : String) (_ : Option IssueComment) : Bool := false

/-- Embeds the MatchReviewComment method of the label-prefix matcher: constant false. -/
def LabelPfx.MatchReviewComment (_ : String) (_ : Option PullRequestComment) : Bool := false

/-- Embeds EventType.MatchEvent of matchers.go: constant true, even for a
nil event pointer. -/
def EventType.MatchEvent (_ : Option IssueEvent) : Bool := true

/-- Embeds EventType.MatchComment of matchers.go: constant false. -/
def EventType.MatchComment (_ : Option IssueComment) : Bool := false

/-- Embeds EventType.MatchReviewComment of matchers.go: constant false. -/
def EventType.MatchReviewComment (_ : Option PullRequestComment) : Bool := false

/-- Embeds CommentType.MatchEvent of matchers.go: constant false. -/
def CommentType.MatchEvent (_ : Option IssueEvent) : Bool := false

/-- Embeds CommentType.MatchComment of matchers.go: constant true, even for
a nil comment pointer. -/
def CommentType.MatchComment (_ : Option IssueComment) : Bool := true

/-- Embeds CommentType.MatchReviewComment of matchers.go: constant false. -/
def CommentType.MatchReviewComment (_ : Option PullRequestComment) : Bool := false

/-- Embeds ReviewCommentType.MatchEvent of matchers.go: constant false. -/
def ReviewCommentType.MatchEvent (_ : Option IssueEvent) : Bool := false

/-- Embeds ReviewCommentType.MatchComment of matchers.go: constant false. -/
def ReviewCommentType.MatchComment (_ : Option IssueComment) : Bool := false

/-- Embeds ReviewCommentType.MatchReviewComment of matchers.go: constant
true, even for a nil pointer. -/
def ReviewCommentType.MatchReviewComment (_ : Option PullRequestComment) : Bool := true

end matchers

namespace client

/-- Embeds wasIdFound: scans the events of one page for the given ID. The
loop dereferences event.ID without a nil check, so an event with a nil ID
reached before any match is a panic (`none`). -/
def wasIdFound (events : List IssueEvent) (id : Int) : Option Bool :=
  match events with
  | [] => some false
  | e :: rest =>
    match e.ID with
    | none => none
    | some i => if i = id then some true else wasIdFound rest id

/-- Embeds the per-issue progress print of FetchIssues: for every issue of
a successfully fetched page, fmt.Println dereferences issue.Number and
issue.UpdatedAt with no nil check, so the first issue with a nil Number
or a nil UpdatedAt is a panic (`none`). -/
def printIssues : List Issue → Option Unit
  | [] => some ()
  | issue :: rest =>
    match issue.Number with
    | none => none
    | some _ =>
      match issue.UpdatedAt with
      | none => none
      | some _ => printIssues rest

/-- Embeds the page loop of FetchIssues. Each entry of `responses` is the
result of one ListByRepo call, in order: `none` is a request error and
`some (issues, nextPage)` a successful page (nextPage 0 meaning no
further page). On an error the function returns the Go pair (nil, err),
embedded as the nil slice with the error flag true; on a successful page
it first prints every issue of the page (which panics on a nil Number or
UpdatedAt), then appends the page, and on a last page returns the
accumulated issues with the error flag false. -/
def FetchIssues.loop (responses : List (Option (List Issue × Nat)))
    (allIssues : GoSlice Issue) : Option (GoSlice Issue × Bool) :=
  match responses with
  | [] => none
  | none :: _ => some (GoSlice.nil Issue, true)
  | some (issues, nextPage) :: rest =>
    match printIssues issues with
    | none => none
    | some _ =>
      let allIssues := allIssues.appendList issues
      if nextPage = 0 then some (allIssues, false)
      else FetchIssues.loop rest allIssues

/-- Embeds FetchIssues (from the point where the github client has been
obtained): runs the page loop with the nil-slice accumulator. -/
def FetchIssues (responses : List (Option (List Issue × Nat))) :
    Option (GoSlice Issue × Bool) :=
  FetchIssues.loop responses (GoSlice.nil Issue)

/-- Embeds the page loop of FetchIssueEvents. Each entry of `responses` is
the result of one ListRepositoryEvents call, in order: `none` is a
request error, which the code answers by sleeping and retrying (continue),
and `some (events, nextPage)` a successful page. After a successful page
the code appends the events and evaluates the termination condition
(nextPage 0, or latest found in the page — evaluating wasIdFound can
panic); whether that condition holds or not it then leaves the loop,
because an unconditional break follows the conditional one, so the
assignment of the next page number below the break is never reached. -/
def FetchIssueEvents.loop (latest : Option Int)
    (responses : List (Option (List IssueEvent × Nat)))
    (allEvents : GoSlice IssueEvent) : Option (GoSlice IssueEvent × Bool) :=
  match responses with
  | [] => none
  | none :: rest => FetchIssueEvents.loop latest rest allEvents
  | some (events, nextPage) :: _ =>
    let allEvents := allEvents.appendList events
    if nextPage = 0 then some (allEvents, false)
    else
      match latest with
      | none => some (allEvents, false)
      | some id =>
        match wasIdFound events id with
        | none => none
        | some _ => some (allEvents, false)

/-- Embeds FetchIssueEvents (from the point where the github client has
been obtained): runs the page loop with the nil-slice accumulator. -/
def FetchIssueEvents (latest : Option Int)
    (responses : List (Option (List IssueEvent × Nat))) :
    Option (GoSlice IssueEvent × Bool) :=
  FetchIssueEvents.loop latest responses (GoSlice.nil IssueEvent)

/-- The first successful response of a response stream, with the failed
attempts before it skipped: the page FetchIssueEvents ends up returning. -/
def firstSuccess (responses : List (Option (List IssueEvent × Nat))) :
    Option (List IssueEvent × Nat) :=
  match responses with
  | [] => none
  | none :: rest => firstSuccess rest
  | some r :: _ => some r

end client

theorem MatchAll_true_iff (ms : List event.Matcher) (e : Option IssueEvent) :
    event.Matcher.MatchAll ms e = some true ↔
      ∀ m ∈ ms, event.Matcher.Match m e = some true := by
  induction ms with
  | nil => simp [event.Matcher.MatchAll]
  | cons m rest ih =>
    rw [event.Matcher.MatchAll]
    cases h : event.Matcher.Match m e with
    | none => simp [h]
    | some b => cases b <;> simp [h, ih]

theorem MatchAny_true_iff (ms : List event.Matcher) (e : Option IssueEvent)
    (hdef : ∀ m ∈ ms, (event.Matcher.Match m e).isSome) :
    event.Matcher.MatchAny ms e = some true ↔
      ∃ m ∈ ms, event.Matcher.Match m e = some true := by
  induction ms with
  | nil => simp [event.Matcher.MatchAny]
  | cons m rest ih =>
    rw [event.Matcher.MatchAny]
    cases h : event.Matcher.Match m e with
    | none =>
      have := hdef m (by simp)
      rw [h] at this
      simp at this
    | some b =>
      cases b with
      | false =>
        have ih2 := ih (fun m hm => hdef m (by simp [hm]))
        simp [h, ih2]
      | true => simp [h]

/-- Claim C3: And with an empty child list matches every input (true) and Or
with an empty child list matches none (false); in general And(children)
matches exactly when every child matches, and, whenever no child panics,
Or(children) matches exactly when some child matches. -/
theorem and_or_combinator_semantics (e : Option IssueEvent) (ms : List event.Matcher) :
    event.Matcher.Match (event.Matcher.And []) e = some true ∧
    event.Matcher.Match (event.Matcher.Or []) e = some false ∧
    (event.Matcher.Match (event.Matcher.And ms) e = some true ↔
      ∀ m ∈ ms, event.Matcher.Match m e = some true) ∧
    ((∀ m ∈ ms, (event.Matcher.Match m e).isSome) →
      (event.Matcher.Match (event.Matcher.Or ms) e = some true ↔
        ∃ m ∈ ms, event.Matcher.Match m e = some true)) := by
  refine ⟨rfl, rfl, ?_, ?_⟩
  · rw [event.Matcher.Match]
    exact MatchAll_true_iff ms e
  · intro hdef
    rw [event.Matcher.Match]
    exact MatchAny_true_iff ms e hdef

/-- Claim C4: the field-free AddLabel struct of the matchers package matches
an event exactly when the event pointer and its Event tag are non-nil and
the tag is the string labeled, and never matches a comment or a review
comment. -/
theorem addLabel_struct_semantics (e : Option IssueEvent)
    (c : Option IssueComment) (r : Option PullRequestComment) :
    (matchers.AddLabel.MatchEvent e = true ↔
      ∃ ev, e = some ev ∧ ev.Event = some "labeled") ∧
    matchers.AddLabel.MatchComment c = false ∧
    matchers.AddLabel.MatchReviewComment r = false := by
  refine ⟨?_, rfl, rfl⟩
  cases e with
  | none => simp [matchers.AddLabel.MatchEvent]
  | some ev =>
    obtain ⟨i, et, lb, ac, ca⟩ := ev
    cases et <;> simp [matchers.AddLabel.MatchEvent]

/-- Claim C6: for records of all three shapes carrying a creation
timestamp, CreatedAfter t matches exactly the records strictly later than
t and CreatedBefore t exactly the records strictly earlier than t; a
record whose timestamp equals t matches neither. -/
theorem created_after_before_strict (t ct : Int) (i : Option Int)
    (et : Option String) (lb : Option Label) (ac : Option User) (u : Option User) :
    (matchers.CreatedAfter.MatchEvent t (some ⟨i, et, lb, ac, some ct⟩) = decide (ct > t)) ∧
    (matchers.CreatedBefore.MatchEvent t (some ⟨i, et, lb, ac, some ct⟩) = decide (ct < t)) ∧
    (matchers.CreatedAfter.MatchComment t (some ⟨u, some ct⟩) = decide (ct > t)) ∧
    (matchers.CreatedBefore.MatchComment t (some ⟨u, some ct⟩) = decide (ct < t)) ∧
    (matchers.CreatedAfter.MatchReviewComment t (some ⟨u, some ct⟩) = decide (ct > t)) ∧
    (matchers.CreatedBefore.MatchReviewComment t (some ⟨u, some ct⟩) = decide (ct < t)) ∧
    (matchers.CreatedAfter.MatchEvent t (some ⟨i, et, lb, ac, some t⟩) = false) ∧
    (matchers.CreatedBefore.MatchEvent t (some ⟨i, et, lb, ac, some t⟩) = false) ∧
    (matchers.CreatedAfter.MatchComment t (some ⟨u, some t⟩) = false) ∧
    (matchers.CreatedBefore.MatchComment t (some ⟨u, some t⟩) = false) ∧
    (matchers.CreatedAfter.MatchReviewComment t (some ⟨u, some t⟩) = false) ∧
    (matchers.CreatedBefore.MatchReviewComment t (some ⟨u, some t⟩) = false) := by
  refine ⟨rfl, rfl, rfl, rfl, rfl, rfl, ?_, ?_, ?_, ?_, ?_, ?_⟩ <;>
    simp [matchers.CreatedAfter.MatchEvent, matchers.CreatedBefore.MatchEvent,
      matchers.CreatedAfter.MatchComment, matchers.CreatedBefore.MatchComment,
      matchers.CreatedAfter.MatchReviewComment, matchers.CreatedBefore.MatchReviewComment]

/-- Claim C7: AuthorLogin(name) matches a record of any of the three shapes
exactly when the record, its author reference and the author login are all
non-nil and the login equals name up to lowercasing; a nil author reference
or nil login yields false. -/
theorem authorLogin_case_insensitive (a : String) (e : Option IssueEvent)
    (c : Option IssueComment) (r : Option PullRequestComment) :
    (matchers.AuthorLogin.MatchEvent a e = true ↔
      ∃ ev u l, e = some ev ∧ ev.Actor = some u ∧ u.Login = some l ∧
        strToLower l = strToLower a) ∧
    (matchers.AuthorLogin.MatchComment a c = true ↔
      ∃ cm u l, c = some cm ∧ cm.User = some u ∧ u.Login = some l ∧
        strToLower l = strToLower a) ∧
    (matchers.AuthorLogin.MatchReviewComment a r = true ↔
      ∃ rv u l, r = some rv ∧ rv.User = some u ∧ u.Login = some l ∧
        strToLower l = strToLower a) := by
  refine ⟨?_, ?_, ?_⟩
  · cases e with
    | none => simp [matchers.AuthorLogin.MatchEvent]
    | some ev =>
      obtain ⟨i, et, lb, ac, ca⟩ := ev
      cases ac with
      | none => simp [matchers.AuthorLogin.MatchEvent]
      | some u =>
        obtain ⟨lg⟩ := u
        cases lg <;> simp [matchers.AuthorLogin.MatchEvent]
  · cases c with
    | none => simp [matchers.AuthorLogin.MatchComment]
    | some cm =>
      obtain ⟨cu, ca⟩ := cm
      cases cu with
      | none => simp [matchers.AuthorLogin.MatchComment]
      | some u =>
        obtain ⟨lg⟩ := u
        cases lg <;> simp [matchers.AuthorLogin.MatchComment]
  · cases r with
    | none => simp [matchers.AuthorLogin.MatchReviewComment]
    | some rv =>
      obtain ⟨ru, ca⟩ := rv
      cases ru with
      | none => simp [matchers.AuthorLogin.MatchReviewComment]
      | some u =>
        obtain ⟨lg⟩ := u
        cases lg <;> simp [matchers.AuthorLogin.MatchReviewComment]

/-- Claim C9: the event-package Actor(name) matcher requires the Actor
reference and its Login to be non-nil and compares the login to name with
plain (case-sensitive) string equality, so an actor login that differs
from name only in letter case does not match Actor, while the
case-insensitive AuthorLogin matcher of the matchers package does match it. -/
theorem actor_case_sensitive (name : String) (ev : IssueEvent) :
    (event.Matcher.Match (event.Matcher.Actor name) (some ev) = some true ↔
      ∃ u l, ev.Actor = some u ∧ u.Login = some l ∧ l = name) ∧
    event.Matcher.Match (event.Matcher.Actor "bob")
      (some ⟨none, none, none, some ⟨some "Bob"⟩, none⟩) = some false ∧
    matchers.AuthorLogin.MatchEvent "bob"
      (some ⟨none, none, none, some ⟨some "Bob"⟩, none⟩) = true := by
  refine ⟨?_, by decide, by decide⟩
  obtain ⟨i, et, lb, ac, ca⟩ := ev
  cases ac with
  | none => simp [event.Matcher.Match]
  | some u =>
    obtain ⟨lg⟩ := u
    cases lg <;> simp [event.Matcher.Match]

/-- Claim C10: the string-parameterized AddLabel(name) matcher of the event
package requires Label, Label.Name and Event to be non-nil and then
combines the two tests by disjunction: the event matches when its type is
labeled or when its label name equals name, so an event of a different
type whose label name equals name still matches. -/
theorem event_addLabel_disjunction (name : String) (ev : IssueEvent) :
    (event.Matcher.Match (event.Matcher.AddLabel name) (some ev) = some true ↔
      ∃ lb ln et, ev.Label = some lb ∧ lb.Name = some ln ∧ ev.Event = some et ∧
        (et = "labeled" ∨ ln = name)) ∧
    event.Matcher.Match (event.Matcher.AddLabel "kind/bug")
      (some ⟨none, some "closed", some ⟨some "kind/bug"⟩, none, none⟩) = some true ∧
    (⟨none, some "closed", some ⟨some "kind/bug"⟩, none, none⟩ : IssueEvent).Event
      = some "closed" := by
  refine ⟨?_, by decide, rfl⟩
  obtain ⟨i, et, lb, ac, ca⟩ := ev
  cases lb with
  | none => simp [event.Matcher.Match]
  | some l =>
    obtain ⟨ln⟩ := l
    cases ln with
    | none => simp [event.Matcher.Match]
    | some lname => cases et <;> simp [event.Matcher.Match]

theorem GoSlice_nil_appendList_data {α : Type} (xs : List α) :
    ((GoSlice.nil α).appendList xs).data = xs := by
  cases xs <;> simp [GoSlice.nil, GoSlice.appendList]

theorem FindEvent_loop_filter (m : event.Matcher) (events : List (Option IssueEvent))
    (l : List (Option IssueEvent))
    (hdef : ∀ e ∈ events, (event.Matcher.Match m e).isSome) :
    event.FindEvent.loop events m ⟨false, l⟩ =
      some ⟨false, l ++ events.filter
        (fun e => decide (event.Matcher.Match m e = some true))⟩ := by
  induction events generalizing l with
  | nil => simp [event.FindEvent.loop]
  | cons e rest ih =>
    have hd := hdef e (by simp)
    rw [event.FindEvent.loop]
    cases h : event.Matcher.Match m e with
    | none => rw [h] at hd; simp at hd
    | some b =>
      have ih2 := fun l => ih l (fun x hx => hdef x (by simp [hx]))
      cases b with
      | true => simp [h, GoSlice.appendList, ih2]
      | false => simp [h, ih2]

/-- Claim C5: FindEvent returns exactly the ordered sub-list of its input
whose elements the matcher matches (whenever no Match call panics): input
order is preserved, nothing is deduplicated, and an empty input or an
input with no matches yields the empty non-nil slice. -/
theorem findEvent_filters_in_order (events : List (Option IssueEvent))
    (m : event.Matcher)
    (hdef : ∀ e ∈ events, (event.Matcher.Match m e).isSome) :
    event.FindEvent events m =
      some ⟨false, events.filter
        (fun e => decide (event.Matcher.Match m e = some true))⟩ := by
  have h := FindEvent_loop_filter m events [] hdef
  simpa [event.FindEvent] using h

/-- Witness for C5 at a concrete input: of three events with actor logins
alice, bob, alice, the Actor alice matcher keeps the first and the third,
in order, in a non-nil result slice. -/
theorem findEvent_filters_in_order_witness :
    event.FindEvent
      [some ⟨none, none, none, some ⟨some "alice"⟩, none⟩,
       some ⟨none, none, none, some ⟨some "bob"⟩, none⟩,
       some ⟨none, none, none, some ⟨some "alice"⟩, none⟩]
      (event.Matcher.Actor "alice") =
      some ⟨false,
        [some ⟨none, none, none, some ⟨some "alice"⟩, none⟩,
         some ⟨none, none, none, some ⟨some "alice"⟩, none⟩]⟩ := by
  have h := findEvent_filters_in_order
    [some ⟨none, none, none, some ⟨some "alice"⟩, none⟩,
     some ⟨none, none, none, some ⟨some "bob"⟩, none⟩,
     some ⟨none, none, none, some ⟨some "alice"⟩, none⟩]
    (event.Matcher.Actor "alice") (by decide)
  exact h.trans (by decide)

theorem FetchIssueEvents_loop_first (latest : Option Int)
    (responses : List (Option (List IssueEvent × Nat)))
    (acc : GoSlice IssueEvent) (result : GoSlice IssueEvent × Bool)
    (h : client.FetchIssueEvents.loop latest responses acc = some result) :
    ∃ page, client.firstSuccess responses = some page ∧
      result.1 = acc.appendList page.1 ∧ result.2 = false := by
  induction responses generalizing acc with
  | nil => simp [client.FetchIssueEvents.loop] at h
  | cons x rest ih =>
    cases x with
    | none =>
      rw [client.FetchIssueEvents.loop] at h
      simpa [client.firstSuccess] using ih acc h
    | some p =>
      obtain ⟨events, np⟩ := p
      simp only [client.FetchIssueEvents.loop] at h
      refine ⟨(events, np), by simp [client.firstSuccess], ?_⟩
      by_cases hnp : np = 0
      · simp [hnp] at h
        simp [← h]
      · simp only [hnp, if_false] at h
        cases latest with
        | none =>
          simp at h
          simp [← h]
        | some id =>
          cases hw : client.wasIdFound events id with
          | none => simp [hw] at h
          | some b =>
            simp [hw] at h
            simp [← h]

theorem wasIdFound_total (events : List IssueEvent) (id : Int)
    (h : ∀ e ∈ events, e.ID.isSome) :
    ∃ b, client.wasIdFound events id = some b := by
  induction events with
  | nil => exact ⟨false, rfl⟩
  | cons e rest ih =>
    have he := h e (by simp)
    cases hid : e.ID with
    | none => rw [hid] at he; simp at he
    | some i =>
      obtain ⟨b, hb⟩ := ih (fun x hx => h x (List.mem_cons_of_mem _ hx))
      by_cases hii : i = id
      · exact ⟨true, by simp [client.wasIdFound, hid, hii]⟩
      · exact ⟨b, by simp [client.wasIdFound, hid, hii, hb]⟩

theorem FetchIssueEvents_loop_stops (latest : Option Int)
    (responses : List (Option (List IssueEvent × Nat)))
    (acc : GoSlice IssueEvent) (page : List IssueEvent × Nat)
    (hp : client.firstSuccess responses = some page)
    (hok : latest = none ∨ ∀ e ∈ page.1, e.ID.isSome) :
    client.FetchIssueEvents.loop latest responses acc
      = some (acc.appendList page.1, false) := by
  induction responses generalizing acc with
  | nil => simp [client.firstSuccess] at hp
  | cons x rest ih =>
    cases x with
    | none =>
      rw [client.FetchIssueEvents.loop]
      exact ih acc (by simpa [client.firstSuccess] using hp)
    | some p =>
      obtain ⟨events, np⟩ := p
      have hpage : page = (events, np) := by
        simpa [client.firstSuccess, eq_comm] using hp
      subst hpage
      simp only [client.FetchIssueEvents.loop]
      by_cases hnp : np = 0
      · simp [hnp]
      · rcases hok with h0 | h1
        · subst h0
          simp [hnp]
        · cases hl : latest with
          | none => simp [hnp]
          | some id =>
            obtain ⟨b, hb⟩ := wasIdFound_total events id h1
            simp [hnp, hb]

/-- Claim C1: for every latest-ID argument, FetchIssueEvents stops after
the first successfully fetched page. Whenever the function returns, its
event list is exactly the events of the first successful response of the
stream; and conversely, once a page is fetched successfully the function
does return that page (provided the identifier scan does not panic on a
nil event ID), whether or not the page reports a further page and whether
or not the identifier occurs in it, because an unconditional break
follows the termination check. -/
theorem fetchIssueEvents_single_page (latest : Option Int)
    (responses : List (Option (List IssueEvent × Nat))) :
    (∀ result, client.FetchIssueEvents latest responses = some result →
      ∃ page, client.firstSuccess responses = some page ∧
        result.1.data = page.1 ∧ result.2 = false) ∧
    (∀ page, client.firstSuccess responses = some page →
      (latest = none ∨ ∀ e ∈ page.1, e.ID.isSome) →
      ∃ result, client.FetchIssueEvents latest responses = some result ∧
        result.1.data = page.1 ∧ result.2 = false) := by
  constructor
  · intro result h
    obtain ⟨page, hp, h1, h2⟩ :=
      FetchIssueEvents_loop_first latest responses (GoSlice.nil IssueEvent) result h
    exact ⟨page, hp, by rw [h1, GoSlice_nil_appendList_data], h2⟩
  · intro page hp hok
    refine ⟨((GoSlice.nil IssueEvent).appendList page.1, false), ?_, ?_, rfl⟩
    · exact FetchIssueEvents_loop_stops latest responses (GoSlice.nil IssueEvent) page hp hok
    · exact GoSlice_nil_appendList_data page.1

/-- Witness for C1 at a concrete input: the first request fails and is
retried, the second returns one event (ID 1) with a further page 4
announced and the latest-ID argument 7 not found in the page; the function
nevertheless returns exactly this one page. -/
theorem fetchIssueEvents_single_page_witness :
    ∃ page, client.firstSuccess
        [none, some ([⟨some 1, none, none, none, none⟩], 4)] = some page ∧
      (GoSlice.mk false [(⟨some 1, none, none, none, none⟩ : IssueEvent)], false).1.data
        = page.1 ∧
      (GoSlice.mk false [(⟨some 1, none, none, none, none⟩ : IssueEvent)], false).2
        = false :=
  (fetchIssueEvents_single_page (some 7)
      [none, some ([⟨some 1, none, none, none, none⟩], 4)]).1
    (⟨false, [⟨some 1, none, none, none, none⟩]⟩, false) (by decide)

theorem printIssues_total (issues : List Issue)
    (h : ∀ issue ∈ issues, issue.Number.isSome ∧ issue.UpdatedAt.isSome) :
    client.printIssues issues = some () := by
  induction issues with
  | nil => rfl
  | cons issue rest ih =>
    obtain ⟨hn, hu⟩ := h issue (by simp)
    cases hnn : issue.Number with
    | none => rw [hnn] at hn; simp at hn
    | some n =>
      cases huu : issue.UpdatedAt with
      | none => rw [huu] at hu; simp at hu
      | some uu =>
        simp only [client.printIssues, hnn, huu]
        exact ih (fun x hx => h x (List.mem_cons_of_mem _ hx))

theorem FetchIssues_loop_error (post : List (Option (List Issue × Nat)))
    (pre : List (Option (List Issue × Nat))) (acc : GoSlice Issue)
    (h : ∀ x ∈ pre, ∃ p, x = some p ∧ p.2 ≠ 0 ∧
      ∀ issue ∈ p.1, issue.Number.isSome ∧ issue.UpdatedAt.isSome) :
    client.FetchIssues.loop (pre ++ none :: post) acc = some (GoSlice.nil Issue, true) := by
  induction pre generalizing acc with
  | nil => rw [List.nil_append, client.FetchIssues.loop]
  | cons x rest ih =>
    obtain ⟨⟨issues, np⟩, hx, hnp, hprint⟩ := h x (by simp)
    subst hx
    rw [List.cons_append]
    simp only [client.FetchIssues.loop, printIssues_total issues hprint, hnp, if_false]
    exact ih _ (fun y hy => h y (List.mem_cons_of_mem _ hy))

/-- Claim C8: when any page request of FetchIssues fails, the whole fetch
aborts at once with the Go pair (nil, err): the issues of the pages already
fetched are discarded, the responses after the failure are never consumed
(no retry), and the error is surfaced to the caller. The pages fetched
before the failure are required to carry issues with non-nil Number and
UpdatedAt, since otherwise the per-issue progress print panics on an
earlier page and the error response is never reached. -/
theorem fetchIssues_error_aborts (pre post : List (Option (List Issue × Nat)))
    (h : ∀ x ∈ pre, ∃ p, x = some p ∧ p.2 ≠ 0 ∧
      ∀ issue ∈ p.1, issue.Number.isSome ∧ issue.UpdatedAt.isSome) :
    client.FetchIssues (pre ++ none :: post) = some (GoSlice.nil Issue, true) :=
  FetchIssues_loop_error post pre (GoSlice.nil Issue) h

/-- Witness for C8 at a concrete input: one page with one issue (Number 1,
UpdatedAt 10, so the progress print succeeds) is fetched with a further
page announced, the second request fails; the result is the nil slice
with the error flag, and the third (successful) response is never
reached. -/
theorem fetchIssues_error_aborts_witness :
    client.FetchIssues
      [some ([⟨some 1, some 10⟩], 2), none, some ([⟨some 2, some 20⟩], 0)] =
      some (GoSlice.nil Issue, true) :=
  fetchIssues_error_aborts [some ([⟨some 1, some 10⟩], 2)]
    [some ([⟨some 2, some 20⟩], 0)]
    (by
      intro x hx
      simp at hx
      subst hx
      exact ⟨([⟨some 1, some 10⟩], 2), rfl, by decide⟩)

/-- Counterexample to claim C2: not every leaf matcher fails closed. The
event-package CreatedAfter matcher calls event.CreatedAt.After with no
nil check, so on an event whose CreatedAt is nil the Match call panics
(modelled as none) instead of returning false; the event-package Actor
matcher reads event.Actor of a nil event pointer and panics as well; and
the matchers-package EventType matcher returns true even for a nil event
pointer instead of returning false. -/
theorem leaf_matchers_not_fail_closed_cex :
    event.Matcher.Match (event.Matcher.CreatedAfter 0)
      (some ⟨none, none, none, none, none⟩) = none ∧
    event.Matcher.Match (event.Matcher.Actor "x") none = none ∧
    matchers.EventType.MatchEvent none = true := by decide

/-- Amended claim C2: in the matchers package every field-inspecting leaf
matcher (CreatedAfter, CreatedBefore, ValidAuthor, AuthorLogin, AddLabel
and the label-prefix matcher) is total and fail-closed: a nil record or a
nil inspected field yields false, never true and never a failure, while
the constant type-discriminator matchers ignore their argument entirely
and so return true even on a nil record of their own shape. In the event
package, Actor and AddLabel fail closed on nil inspected fields of a
non-nil event but panic on a nil event pointer, and CreatedAfter and
CreatedBefore panic whenever the event or its CreatedAt is nil. -/
theorem leaf_matchers_fail_closed_amended (t : Int) (a s : String)
    (i : Option Int) (et : Option String) (lb : Option Label)
    (ac : Option User) (ca : Option Int) (u : Option User)
    (e : Option IssueEvent) (c : Option IssueComment)
    (r : Option PullRequestComment) :
    (matchers.CreatedAfter.MatchEvent t none = false) ∧
    (matchers.CreatedAfter.MatchComment t none = false) ∧
    (matchers.CreatedAfter.MatchReviewComment t none = false) ∧
    (matchers.CreatedBefore.MatchEvent t none = false) ∧
    (matchers.CreatedBefore.MatchComment t none = false) ∧
    (matchers.CreatedBefore.MatchReviewComment t none = false) ∧
    (matchers.CreatedAfter.MatchEvent t (some ⟨i, et, lb, ac, none⟩) = false) ∧
    (matchers.CreatedAfter.MatchComment t (some ⟨u, none⟩) = false) ∧
    (matchers.CreatedAfter.MatchReviewComment t (some ⟨u, none⟩) = false) ∧
    (matchers.CreatedBefore.MatchEvent t (some ⟨i, et, lb, ac, none⟩) = false) ∧
    (matchers.CreatedBefore.MatchComment t (some ⟨u, none⟩) = false) ∧
    (matchers.CreatedBefore.MatchReviewComment t (some ⟨u, none⟩) = false) ∧
    (matchers.ValidAuthor.MatchEvent none = false) ∧
    (matchers.ValidAuthor.MatchComment none = false) ∧
    (matchers.ValidAuthor.MatchReviewComment none = false) ∧
    (matchers.ValidAuthor.MatchEvent (some ⟨i, et, lb, none, ca⟩) = false) ∧
    (matchers.ValidAuthor.MatchEvent (some ⟨i, et, lb, some ⟨none⟩, ca⟩) = false) ∧
    (matchers.ValidAuthor.MatchComment (some ⟨none, ca⟩) = false) ∧
    (matchers.ValidAuthor.MatchComment (some ⟨some ⟨none⟩, ca⟩) = false) ∧
    (matchers.ValidAuthor.MatchReviewComment (some ⟨none, ca⟩) = false) ∧
    (matchers.ValidAuthor.MatchReviewComment (some ⟨some ⟨none⟩, ca⟩) = false) ∧
    (matchers.AuthorLogin.MatchEvent a none = false) ∧
    (matchers.AuthorLogin.MatchComment a none = false) ∧
    (matchers.AuthorLogin.MatchReviewComment a none = false) ∧
    (matchers.AuthorLogin.MatchEvent a (some ⟨i, et, lb, none, ca⟩) = false) ∧
    (matchers.AuthorLogin.MatchEvent a (some ⟨i, et, lb, some ⟨none⟩, ca⟩) = false) ∧
    (matchers.AuthorLogin.MatchComment a (some ⟨none, ca⟩) = false) ∧
    (matchers.AuthorLogin.MatchComment a (some ⟨some ⟨none⟩, ca⟩) = false) ∧
    (matchers.AuthorLogin.MatchReviewComment a (some ⟨none, ca⟩) = false) ∧
    (matchers.AuthorLogin.MatchReviewComment a (some ⟨some ⟨none⟩, ca⟩) = false) ∧
    (matchers.AddLabel.MatchEvent none = false) ∧
    (matchers.AddLabel.MatchEvent (some ⟨i, none, lb, ac, ca⟩) = false) ∧
    (matchers.AddLabel.MatchComment c = false) ∧
    (matchers.AddLabel.MatchReviewComment r = false) ∧
    (matchers.LabelPfx.MatchEvent a none = false) ∧
    (matchers.LabelPfx.MatchEvent a (some ⟨i, et, none, ac, ca⟩) = false) ∧
    (matchers.LabelPfx.MatchEvent a (some ⟨i, et, some ⟨none⟩, ac, ca⟩) = false) ∧
    (matchers.LabelPfx.MatchComment a c = false) ∧
    (matchers.LabelPfx.MatchReviewComment a r = false) ∧
    (matchers.EventType.MatchEvent e = true) ∧
    (matchers.EventType.MatchComment c = false) ∧
    (matchers.EventType.MatchReviewComment r = false) ∧
    (matchers.CommentType.MatchEvent e = false) ∧
    (matchers.CommentType.MatchComment c = true) ∧
    (matchers.CommentType.MatchReviewComment r = false) ∧
    (matchers.ReviewCommentType.MatchEvent e = false) ∧
    (matchers.ReviewCommentType.MatchComment c = false) ∧
    (matchers.ReviewCommentType.MatchReviewComment r = true) ∧
    (event.Matcher.Match (event.Matcher.Actor a) none = none) ∧
    (event.Matcher.Match (event.Matcher.Actor a) (some ⟨i, et, lb, none, ca⟩) = some false) ∧
    (event.Matcher.Match (event.Matcher.Actor a) (some ⟨i, et, lb, some ⟨none⟩, ca⟩)
      = some false) ∧
    (event.Matcher.Match (event.Matcher.AddLabel a) none = none) ∧
    (event.Matcher.Match (event.Matcher.AddLabel a) (some ⟨i, et, none, ac, ca⟩)
      = some false) ∧
    (event.Matcher.Match (event.Matcher.AddLabel a) (some ⟨i, et, some ⟨none⟩, ac, ca⟩)
      = some false) ∧
    (event.Matcher.Match (event.Matcher.AddLabel a) (some ⟨i, none, some ⟨some s⟩, ac, ca⟩)
      = some false) ∧
    (event.Matcher.Match (event.Matcher.CreatedAfter t) none = none) ∧
    (event.Matcher.Match (event.Matcher.CreatedAfter t) (some ⟨i, et, lb, ac, none⟩)
      = none) ∧
    (event.Matcher.Match (event.Matcher.CreatedBefore t) none = none) ∧
    (event.Matcher.Match (event.Matcher.CreatedBefore t) (some ⟨i, et, lb, ac, none⟩)
      = none) :=
  ⟨rfl, rfl, rfl, rfl, rfl, rfl, rfl, rfl, rfl, rfl, rfl, rfl, rfl, rfl, rfl,
   rfl, rfl, rfl, rfl, rfl, rfl, rfl, rfl, rfl, rfl, rfl, rfl, rfl, rfl, rfl,
   rfl, rfl, rfl, rfl, rfl, rfl, rfl, rfl, rfl, rfl, rfl, rfl, rfl, rfl, rfl,
   rfl, rfl, rfl, rfl, rfl, rfl, rfl, rfl, rfl, rfl, rfl, rfl, rfl, rfl⟩
